import Mathlib

/-!
Verification of the file-listing / path-resolution / tree-walk module
(`aliyunpan/file_directory.go`).

The Go code is shallowly embedded: pure functions become Lean functions,
the HTTP transport boundary is abstracted as the outcome values it can
produce (a requesting function is taken as a parameter), and Go's
`(value, *ApiError)` return pairs become `Except`/`Option` values.
Go `int64` fields (file sizes, counters) are modelled as `Int`.
Go `nil` pointers inside slices are modelled with `Option`.
-/

/-- Modelled from the spec: the `apierror` package is not part of the
sources under verification; §7 of the design document describes API errors
as carrying an error kind (code) and a message.  `NewFailedApiError`
wraps a plain message as a generic failure, `NewApiError` builds an error
from an explicit code. -/
structure ApiError where
  code : String
  msg : String
deriving DecidableEq

/-- Modelled from the spec: generic failure constructor of the `apierror`
package (used for transport and deserialization failures). -/
def NewFailedApiError (msg : String) : ApiError :=
  { code := "failed", msg := msg }

/-- Modelled from the spec: the not-found error code of the `apierror`
package. -/
def ApiCodeFileNotFoundCode : String := "file_not_found"

/-- Modelled from the spec: explicit-code error constructor of the
`apierror` package. -/
def NewApiError (code msg : String) : ApiError :=
  { code := code, msg := msg }

/-- `FileEntity` (file_directory.go lines 52-89): one file or folder node.
Field defaults are Go zero values. -/
structure FileEntity where
  DriveId : String := ""
  DomainId : String := ""
  FileId : String := ""
  FileName : String := ""
  FileSize : Int := 0
  FileType : String := ""
  CreatedAt : String := ""
  UpdatedAt : String := ""
  FileExtension : String := ""
  UploadId : String := ""
  ParentFileId : String := ""
  Crc64Hash : String := ""
  ContentHash : String := ""
  ContentHashName : String := ""
  Path : String := ""
  Category : String := ""
  SyncFlag : Bool := false
  SyncMeta : String := ""
deriving DecidableEq

/-- `FileList` (line 49): `[]*FileEntity`; slice elements are pointers and
may be nil, hence `Option`. -/
def FileList : Type := List (Option FileEntity)

instance : DecidableEq FileList := by
  unfold FileList; infer_instance

instance : Append FileList := ⟨fun a b => List.append a b⟩

/-- `fileEntityResult` (lines 91-119): one wire-format file record. -/
structure fileEntityResult where
  DriveId : String := ""
  DomainId : String := ""
  FileId : String := ""
  Name : String := ""
  «Type» : String := ""
  ContentType : String := ""
  CreatedAt : String := ""
  UpdatedAt : String := ""
  FileExtension : String := ""
  MimeType : String := ""
  MimeExtension : String := ""
  Hidden : Bool := false
  Size : Int := 0
  Starred : Bool := false
  Status : String := ""
  UploadId : String := ""
  ParentFileId : String := ""
  Crc64Hash : String := ""
  ContentHash : String := ""
  ContentHashName : String := ""
  DownloadUrl : String := ""
  Url : String := ""
  Category : String := ""
  EncryptMode : String := ""
  PunishFlag : Int := 0
  SyncFlag : Bool := false
  SyncMeta : String := ""
deriving DecidableEq

/-- `fileListResult` (lines 121-125): one wire-format listing page;
items are pointers, hence `Option`. -/
structure fileListResult where
  Items : List (Option fileEntityResult) := []
  NextMarker : String := ""
deriving DecidableEq

/-- `FileListParam` (lines 32-40). Go `int` limit modelled as `Int`. -/
structure FileListParam where
  OrderBy : String := ""
  OrderDirection : String := ""
  DriveId : String := ""
  ParentFileId : String := ""
  Limit : Int := 0
  Marker : String := ""
deriving DecidableEq

/-- `FileListResult` (lines 43-47): one page of mapped results. -/
structure FileListResult where
  FileList : FileList := []
  NextMarker : String := ""
deriving DecidableEq

/-- `DefaultRootParentFileId` (line 132). -/
def DefaultRootParentFileId : String := "root"

/-- Modelled from the spec: `PathSeparator` is defined elsewhere in the
repository (not in the sources under verification); the spec describes
paths as slash-separated throughout. -/
def PathSeparator : String := "/"

/-- `NewFileEntityForRootDir` (lines 146-154): the synthesized root
sentinel entity. -/
def NewFileEntityForRootDir : FileEntity :=
  { FileId := DefaultRootParentFileId
    FileType := "folder"
    FileName := "/"
    ParentFileId := ""
    Path := "/" }

/-- `createFileEntity` (lines 156-180) on a non-nil record.  The external
`apiutil.UtcTime2LocalFormat` timestamp converter is not part of the
sources under verification and is taken as the parameter `utc2local`. -/
def createFileEntity (utc2local : String → String) (f : fileEntityResult) : FileEntity :=
  { DriveId := f.DriveId
    DomainId := f.DomainId
    FileId := f.FileId
    FileName := f.Name
    FileSize := f.Size
    FileType := f.«Type»
    CreatedAt := utc2local f.CreatedAt
    UpdatedAt := utc2local f.UpdatedAt
    FileExtension := f.FileExtension
    UploadId := f.UploadId
    ParentFileId := f.ParentFileId
    Crc64Hash := f.Crc64Hash
    ContentHash := f.ContentHash
    ContentHashName := f.ContentHashName
    Path := f.Name
    Category := f.Category
    SyncFlag := f.SyncFlag
    SyncMeta := f.SyncMeta }

/-- `createFileEntity`'s nil guard (lines 157-159): nil in, nil out. -/
def createFileEntityOpt (utc2local : String → String) (f : Option fileEntityResult) : Option FileEntity :=
  f.map (createFileEntity utc2local)

/-- `IsFolder` (lines 183-185). -/
def FileEntity.IsFolder (f : FileEntity) : Bool :=
  f.FileType == "folder"

/-- `IsFile` (lines 188-190). -/
def FileEntity.IsFile (f : FileEntity) : Bool :=
  f.FileType == "file"

/-- Accumulator loop of `TotalSize` (lines 212-222): skip nil entries,
add `FileSize` of the rest. -/
def totalSizeLoop (size : Int) : List (Option FileEntity) → Int
  | [] => size
  | none :: rest => totalSizeLoop size rest
  | some f :: rest => totalSizeLoop (size + f.FileSize) rest

/-- `TotalSize` (lines 212-222): total size of the files of a list. -/
def FileList.TotalSize (fl : FileList) : Int :=
  totalSizeLoop 0 fl

/-- Accumulator loop of `Count` (lines 225-238): skip nil entries, count
folders and non-folders. -/
def countLoop (fileN directoryN : Int) : List (Option FileEntity) → Int × Int
  | [] => (fileN, directoryN)
  | none :: rest => countLoop fileN directoryN rest
  | some f :: rest =>
      if f.IsFolder then countLoop fileN (directoryN + 1) rest
      else countLoop (fileN + 1) directoryN rest

/-- `Count` (lines 225-238): `(fileN, directoryN)` of a list. -/
def FileList.Count (fl : FileList) : Int × Int :=
  countLoop 0 0 fl

theorem totalSizeLoop_eq (size : Int) (l : List (Option FileEntity)) :
    totalSizeLoop size l = size + (l.map (fun o => (o.map FileEntity.FileSize).getD 0)).sum := by
  induction l generalizing size with
  | nil => simp [totalSizeLoop]
  | cons hd tl ih =>
      cases hd with
      | none => simp [totalSizeLoop, ih]
      | some f => simp [totalSizeLoop, ih]; ring

/-- Claim C8: `TotalSize` over a `FileList` returns exactly the sum of the
`FileSize` fields of its non-nil elements, nil elements contributing 0. -/
theorem totalSize_eq_sum_of_sizes (fl : FileList) :
    fl.TotalSize = (fl.map (fun o => (o.map FileEntity.FileSize).getD 0)).sum := by
  have h := totalSizeLoop_eq 0 fl
  simpa [FileList.TotalSize] using h

theorem countLoop_eq (fileN directoryN : Int) (l : List (Option FileEntity)) :
    countLoop fileN directoryN l =
      (fileN + ((l.filterMap id).countP (fun e => !e.IsFolder) : Int),
       directoryN + ((l.filterMap id).countP (fun e => e.IsFolder) : Int)) := by
  induction l generalizing fileN directoryN with
  | nil => simp [countLoop]
  | cons hd tl ih =>
      cases hd with
      | none => simpa [countLoop, List.filterMap_cons] using ih fileN directoryN
      | some f =>
          by_cases hf : f.IsFolder
          · simp [countLoop, hf, List.filterMap_cons, List.countP_cons, ih]
            ring
          · simp [countLoop, hf, List.filterMap_cons, List.countP_cons, ih]
            ring

/-- Claim C9: `Count` over a `FileList` returns `(fileN, directoryN)` where
`directoryN` counts exactly the non-nil elements whose `FileType` is
`"folder"`, `fileN` counts all other non-nil elements, and the two add up
to the number of non-nil elements. -/
theorem count_partitions_files_and_folders (fl : FileList) :
    fl.Count.2 = ((fl.filterMap id).countP (fun e => e.IsFolder) : Int) ∧
    fl.Count.1 = ((fl.filterMap id).countP (fun e => !e.IsFolder) : Int) ∧
    fl.Count.1 + fl.Count.2 = ((fl.filterMap id).length : Int) := by
  have h := countLoop_eq 0 0 fl
  have h1 : fl.Count.1 = ((fl.filterMap id).countP (fun e => !e.IsFolder) : Int) := by
    simp [FileList.Count, h]
  have h2 : fl.Count.2 = ((fl.filterMap id).countP (fun e => e.IsFolder) : Int) := by
    simp [FileList.Count, h]
  refine ⟨h2, h1, ?_⟩
  rw [h1, h2]
  have hsplit : (fl.filterMap id).length = (fl.filterMap id).countP (fun e => !e.IsFolder)
      + (fl.filterMap id).countP (fun e => e.IsFolder) := by
    simpa using List.length_eq_countP_add_countP (l := fl.filterMap id)
      (p := fun e => !e.IsFolder)
  rw [hsplit]
  push_cast
  ring

/-- Mapping loop of method `FileList` (lines 247-253): skip nil wire
records, map the rest through `createFileEntity`. -/
def collectItems (utc2local : String → String) : List (Option fileEntityResult) → FileList
  | [] => []
  | none :: rest => collectItems utc2local rest
  | some it :: rest => some (createFileEntity utc2local it) :: collectItems utc2local rest

/-- `fileListReq` (lines 259-318).  The HTTP exchange (request
construction, lines 260-300) is abstracted as its outcome `fetchOutcome`;
the protocol-error scan (`apierror.ParseCommonApiError`) and the JSON
decoder (`json.Unmarshal`) are external collaborators taken as parameters.
The error flow of lines 300-317 is translated verbatim: a transport
failure or a decode failure is wrapped by `NewFailedApiError`, a
recognized protocol error envelope is returned as is. -/
def fileListReq (fetchOutcome : Except String String)
    (parseCommonApiErr : String → Option ApiError)
    (unmarshal : String → Except String fileListResult) : Except ApiError fileListResult :=
  match fetchOutcome with
  | .error err => .error (NewFailedApiError err)
  | .ok body =>
      match parseCommonApiErr body with
      | some err1 => .error err1
      | none =>
          match unmarshal body with
          | .error err2 => .error (NewFailedApiError err2)
          | .ok r => .ok r

/-- Method `FileList` of `PanClient` (lines 241-257), named `FileListGo`
only because the type `FileList` already carries the source name.
`reqOutcome` is the result of `fileListReq` for this one call.  The
translation mirrors the source exactly: the result is initialized empty,
populated only when the request succeeded (line 246 checks `err == nil`),
and the function ALWAYS returns a nil error (line 256 is
`return result, nil`). -/
def FileListGo (utc2local : String → String) (reqOutcome : Except ApiError fileListResult) :
    Option FileListResult × Option ApiError :=
  let result : FileListResult := { FileList := [], NextMarker := "" }
  match reqOutcome with
  | .ok flr =>
      (some { FileList := collectItems utc2local flr.Items, NextMarker := flr.NextMarker }, none)
  | .error _ => (some result, none)

/-- Pagination loop of `FileListGetAll` (lines 509-517).  `req` gives the
outcome of `fileListReq` as a function of the continuation marker (the
only request field that changes between pages of one call); `fuel` bounds
the number of loop iterations (the Go loop is unbounded; every theorem
below supplies sufficient fuel for its input). -/
def fileListGetAllLoop (utc2local : String → String)
    (req : String → Except ApiError fileListResult)
    (marker : String) (fileList : FileList) : Nat → Option FileList × Option ApiError
  | 0 => (some fileList, none)
  | fuel + 1 =>
      if marker.length > 0 then
        match FileListGo utc2local (req marker) with
        | (some result, none) =>
            fileListGetAllLoop utc2local req result.NextMarker
              (fileList ++ result.FileList) fuel
        | _ => (some fileList, none)
      else (some fileList, none)

/-- `FileListGetAll` (lines 488-519): copy the parameters, default a
non-positive limit to 100, fetch the first page, then follow continuation
markers. -/
def FileListGetAll (utc2local : String → String)
    (req : String → Except ApiError fileListResult)
    (param : FileListParam) (fuel : Nat) : Option FileList × Option ApiError :=
  let internalParam : FileListParam :=
    { OrderBy := param.OrderBy, OrderDirection := param.OrderDirection,
      DriveId := param.DriveId, ParentFileId := param.ParentFileId,
      Limit := param.Limit, Marker := param.Marker }
  let internalParam :=
    if internalParam.Limit ≤ 0 then { internalParam with Limit := 100 } else internalParam
  match FileListGo utc2local (req internalParam.Marker) with
  | (none, err) => (none, err)
  | (some _, some err) => (none, some err)
  | (some result, none) =>
      fileListGetAllLoop utc2local req result.NextMarker result.FileList fuel

/-- Claim C2 (code bug): on a transport failure `fileListReq` does produce
a non-nil error, but method `FileList` discards it — line 256 is
`return result, nil` — and reports the failure as a successful empty
result with a nil error. -/
theorem fileList_swallows_transport_error :
    fileListReq (.error "network error") (fun _ => none) (fun _ => .ok {}) =
      .error (NewFailedApiError "network error") ∧
    FileListGo (fun s => s)
        (fileListReq (.error "network error") (fun _ => none) (fun _ => .ok {})) =
      (some { FileList := [], NextMarker := "" }, none) := by
  exact ⟨rfl, rfl⟩

/-- Claim C1 (code bug): when the very first page request fails,
`FileListGetAll` returns an empty list together with a nil error, not the
page's error: the error was already swallowed inside method `FileList`,
so the `err != nil` branch at line 503 is unreachable. -/
theorem fileListGetAll_first_page_failure_yields_nil_error :
    FileListGetAll (fun s => s)
        (fun _ => .error (NewFailedApiError "network error")) {} 5 =
      (some [], none) := by
  rfl

/-- Go standard library `path.IsAbs` (used at line 366):
`len(path) > 0 && path[0] == '/'`, i.e. a path is absolute exactly when
it begins with "/". -/
def goPathIsAbs (s : String) : Bool :=
  match s.data with
  | [] => false
  | c :: _ => c == '/'

/-- Character loop of Go `strings.Split` for the one-character separator
"/" (`PathSeparator`): cut at every separator occurrence, keeping empty
fields. -/
def splitSlashAux (cur : List Char) : List Char → List String
  | [] => [String.mk cur.reverse]
  | '/' :: rest => String.mk cur.reverse :: splitSlashAux [] rest
  | c :: rest => splitSlashAux (c :: cur) rest

/-- Go standard library `strings.Split(s, PathSeparator)` (used at line
377), with `PathSeparator` being "/". -/
def goSplitSlash (s : String) : List String :=
  splitSlashAux [] s.data

/-- Descent loop of `getFileInfoByPath` (lines 400-421) for a non-nil
parent: for each remaining path segment, list the children of the current
parent (`FileListGetAll`, abstracted as `listAll` keyed by the parent's
file id), fail on a listing error or a nil/empty listing, otherwise scan
for the first child whose name equals the segment and descend into it;
no match is a not-found failure.  The second component records, in call
order, the parent ids that were listed. -/
def resolveSegs (listAll : String → Except ApiError (List FileEntity))
    (parentFileInfo : FileEntity) : List String → Except ApiError FileEntity × List String
  | [] => (.ok parentFileInfo, [])
  | seg :: rest =>
      match listAll parentFileInfo.FileId with
      | .error err => (.error err, [parentFileInfo.FileId])
      | .ok fileResult =>
          if fileResult.length = 0 then
            (.error (NewApiError ApiCodeFileNotFoundCode "文件不存在"), [parentFileInfo.FileId])
          else
            match fileResult.find? (fun fe => fe.FileName == seg) with
            | some fe =>
                let r := resolveSegs listAll fe rest
                (r.1, parentFileInfo.FileId :: r.2)
            | none =>
                (.error (NewApiError ApiCodeFileNotFoundCode "文件不存在"), [parentFileInfo.FileId])

/-- `getFileInfoByPath` (lines 389-422) as first invoked by
`FileInfoByPath` (line 382): index 0 and nil parent.  The nil-parent
branch (lines 390-398) synthesizes the root sentinel and returns it
immediately when the slice is the single root segment (path "/");
otherwise the descent proceeds from index 1, i.e. over the tail of the
segment slice, which is `resolveSegs` on `pathSlice.drop 1` (the
`index >= len` stop of line 400 is the empty-list case). -/
def getFileInfoByPath (listAll : String → Except ApiError (List FileEntity))
    (pathSlice : List String) : Except ApiError FileEntity × List String :=
  if pathSlice.length = 1 then (.ok NewFileEntityForRootDir, [])
  else resolveSegs listAll NewFileEntityForRootDir (pathSlice.drop 1)

/-- `FileInfoByPath` (lines 361-387).  The Go standard `path.Clean`
normalizer is external and taken as the parameter `clean`; `listAll`
abstracts `FileListGetAll` keyed by drive id and parent file id; the
second component of the result records the listing calls made.  Mirrors
the source: empty path defaults to "/", non-absolute paths are rejected,
paths longer than "/" are cleaned, the slice is `[""]` for "/" and a
split on `PathSeparator` (whose head must be empty) otherwise, and on
success the entity's `Path` is overwritten with the (post-clean) path
string. -/
def FileInfoByPath (clean : String → String)
    (listAll : String → String → Except ApiError (List FileEntity))
    (driveId : String) (pathStr : String) : Except ApiError FileEntity × List String :=
  let pathStr := if pathStr = "" then "/" else pathStr
  if !goPathIsAbs pathStr then
    (.error (NewFailedApiError "pathStr必须是绝对路径"), [])
  else
    let pathStr := if pathStr.length > 1 then clean pathStr else pathStr
    let slice : Except ApiError (List String) :=
      if pathStr = "/" then .ok [""]
      else
        let ps := goSplitSlash pathStr
        if ps.headD "" ≠ "" then .error (NewFailedApiError "pathStr必须是绝对路径")
        else .ok ps
    match slice with
    | .error e => (.error e, [])
    | .ok pathSlice =>
        let r := getFileInfoByPath (listAll driveId) pathSlice
        (r.1.map (fun fe => { fe with Path := pathStr }), r.2)

/-- Claim C5: for every drive id (and any cleaner and listing behavior),
resolving "/" returns the synthesized root sentinel — `FileId` "root",
`FileType` "folder", `Path` "/" — and performs no listing call at all
(the recorded call list is empty). -/
theorem fileInfoByPath_root_sentinel_no_network (clean : String → String)
    (listAll : String → String → Except ApiError (List FileEntity)) (driveId : String) :
    FileInfoByPath clean listAll driveId "/" = (.ok NewFileEntityForRootDir, []) ∧
    NewFileEntityForRootDir.FileId = "root" ∧
    NewFileEntityForRootDir.FileType = "folder" ∧
    NewFileEntityForRootDir.Path = "/" :=
  ⟨rfl, rfl, rfl, rfl⟩

/-- Claim C6 counterexample: the empty string does not start with "/",
yet `FileInfoByPath` succeeds on it: line 362 rewrites "" to "/" before
the absolute-path check, so the root sentinel is returned with a nil
error instead of the claimed invalid-argument failure. -/
theorem fileInfoByPath_empty_path_succeeds :
    goPathIsAbs "" = false ∧
    FileInfoByPath (fun s => s) (fun _ _ => .ok []) "drive" "" =
      (.ok NewFileEntityForRootDir, []) :=
  ⟨rfl, rfl⟩

/-- Claim C6 (amended): for every NON-empty path string that does not
start with "/", `FileInfoByPath` fails with the invalid-argument error
and returns no entity and no listing call, regardless of the drive id,
the cleaner, and the listing behavior. -/
theorem fileInfoByPath_relative_path_fails (clean : String → String)
    (listAll : String → String → Except ApiError (List FileEntity))
    (driveId pathStr : String) (hne : pathStr ≠ "")
    (habs : goPathIsAbs pathStr = false) :
    FileInfoByPath clean listAll driveId pathStr =
      (.error (NewFailedApiError "pathStr必须是绝对路径"), []) := by
  unfold FileInfoByPath
  simp [hne, habs]

/-- Witness for claim C6's amended theorem at the concrete relative path
"abc". -/
theorem fileInfoByPath_relative_path_fails_witness :
    ("abc" : String) ≠ "" ∧ goPathIsAbs "abc" = false ∧
    FileInfoByPath (fun s => s) (fun _ _ => .ok []) "drive" "abc" =
      (.error (NewFailedApiError "pathStr必须是绝对路径"), []) :=
  ⟨by decide, by decide,
    fileInfoByPath_relative_path_fails (fun s => s) (fun _ _ => .ok []) "drive" "abc"
      (by decide) (by decide)⟩

/-- Character loop of Go `strings.ReplaceAll(s, "//", "/")` (used at line
468): replace each leftmost non-overlapping occurrence of "//" by "/". -/
def replaceDoubleSlashAux : List Char → List Char
  | '/' :: '/' :: rest => '/' :: replaceDoubleSlashAux rest
  | c :: rest => c :: replaceDoubleSlashAux rest
  | [] => []

/-- Go `strings.ReplaceAll(s, "//", "/")` (line 468): collapse duplicate
slashes. -/
def goReplaceAllDoubleSlash (s : String) : String :=
  String.mk (replaceDoubleSlashAux s.data)

/-- `HandleFileDirectoryFunc` (line 29): the visitor callback
`(depth, fdPath, fd, apierr) -> bool`; modelled as a pure function (depth,
a non-negative Go int, as `Nat`). -/
def HandleFileDirectoryFunc : Type :=
  Nat → String → Option FileEntity → Option ApiError → Bool

/-- One recorded visitor invocation: the four arguments the walker passed
to the callback. -/
structure VisitCall where
  depth : Nat
  fdPath : String
  fd : Option FileEntity
  apierr : Option ApiError
deriving DecidableEq

mutual
/-- One node of the finite directory tree backing a traversal: the node's
entity (as mapped from the listing of its parent) together with the
outcome `FileListGetAll` produces when listing this node's file id. -/
inductive FsTree where
  | node (ent : FileEntity) (listing : FsListing)
/-- Outcome of `FileListGetAll` for one node: an error, or the child
nodes in listing order.  Entities returned by `FileListGetAll` are never
nil (method `FileList` appends only mapped non-nil records), so children
carry entities directly. -/
inductive FsListing where
  | fail (e : ApiError)
  | ok (children : FsForest)
/-- Sibling subtrees, in listing order. -/
inductive FsForest where
  | nil
  | cons (t : FsTree) (rest : FsForest)
end

mutual
/-- `recurseList` (lines 454-485).  `FileListGetAll` on
`folderInfo.FileId` is abstracted as the `listing` stored in the node
being recursed into.  On a listing error the visitor is told at this
depth and the walk aborts (lines 460-465).  The walk state is the shared
accumulator `fld` and the trace of visitor invocations; the returned
`Bool` is the Go return value. -/
def recurseList (v : Option HandleFileDirectoryFunc) (folderInfo : FileEntity)
    (listing : FsListing) (depth : Nat) (fld : List FileEntity) (trace : List VisitCall) :
    Bool × List FileEntity × List VisitCall :=
  match listing with
  | .fail apiError =>
      match v with
      | some f =>
          let _discarded := f depth folderInfo.Path none (some apiError)
          (false, fld, trace ++ [⟨depth, folderInfo.Path, none, some apiError⟩])
      | none => (false, fld, trace)
  | .ok children => recurseLoop v folderInfo depth children fld trace

/-- Sibling loop of `recurseList` (lines 466-483): compute the child's
path (parent path + "/" + name, duplicate slashes collapsed), append the
child to the shared accumulator, invoke the visitor, and recurse into
folder children; a false `ok` after an iteration aborts the loop (lines
480-482).  For a folder child the visitor's return value is immediately
overwritten by the recursive call's result (line 472 assigns `ok`, line
474 reassigns it), exactly as in the source. -/
def recurseLoop (v : Option HandleFileDirectoryFunc) (folderInfo : FileEntity)
    (depth : Nat) (cs : FsForest) (fld : List FileEntity) (trace : List VisitCall) :
    Bool × List FileEntity × List VisitCall :=
  match cs with
  | .nil => (true, fld, trace)
  | .cons (.node ent sub) rest =>
      let fi : FileEntity :=
        { ent with Path := goReplaceAllDoubleSlash (folderInfo.Path ++ PathSeparator ++ ent.FileName) }
      let fld1 := fld ++ [fi]
      let r :=
        if fi.IsFolder then
          match v with
          | some f =>
              let _discarded := f depth fi.Path (some fi) none
              recurseList v fi sub (depth + 1) fld1 (trace ++ [⟨depth, fi.Path, some fi, none⟩])
          | none => recurseList v fi sub (depth + 1) fld1 trace
        else
          match v with
          | some f => (f depth fi.Path (some fi) none, fld1, trace ++ [⟨depth, fi.Path, some fi, none⟩])
          | none => (true, fld1, trace)
      match r with
      | (true, fld2, trace2) => recurseLoop v folderInfo depth rest fld2 trace2
      | (false, fld2, trace2) => (false, fld2, trace2)
end

/-- `FilesDirectoriesRecurseList` (lines 425-452).  Path resolution
(`FileInfoByPath`, whose `Path` field the resolver has already set) is
abstracted as its outcome `resolved`: an error, or the resolved target
node together with the directory tree backing the walk.  The depth-0
visitor results are discarded by the source (lines 429, 436, 441).
Returns the walk result (nil when the recursion reported an abort) and
the trace of visitor invocations. -/
def FilesDirectoriesRecurseList (v : Option HandleFileDirectoryFunc) (path : String)
    (resolved : Except ApiError FsTree) : Option (List FileEntity) × List VisitCall :=
  match resolved with
  | .error er =>
      match v with
      | some f =>
          let _discarded := f 0 path none (some er)
          (none, [⟨0, path, none, some er⟩])
      | none => (none, [])
  | .ok (.node targetFileInfo listing) =>
      let trace0 : List VisitCall :=
        match v with
        | some f =>
            let _discarded := f 0 path (some targetFileInfo) none
            [⟨0, path, some targetFileInfo, none⟩]
        | none => []
      if targetFileInfo.IsFolder then
        match recurseList v targetFileInfo listing 1 [] trace0 with
        | (true, fld, trace) => (some fld, trace)
        | (false, _, trace) => (none, trace)
      else
        (some [targetFileInfo], trace0)

/-- Worked example, folder `/d`: resolved target entity, `Path` already
set by the resolver. -/
def entD : FileEntity :=
  { FileId := "fid-d", FileName := "d", FileType := "folder", Path := "/d" }

/-- Worked example, folder `A` inside `/d`. -/
def entA : FileEntity :=
  { FileId := "fid-a", FileName := "A", FileType := "folder" }

/-- Worked example, file `x` inside `A`. -/
def entX : FileEntity :=
  { FileId := "fid-x", FileName := "x", FileType := "file", FileSize := 3 }

/-- Worked example, file `B` inside `/d`. -/
def entB : FileEntity :=
  { FileId := "fid-b", FileName := "B", FileType := "file", FileSize := 5 }

/-- Worked example tree: `/d` contains folder `A` (which contains file
`x`) followed by file `B`; every listing succeeds. -/
def exampleTree : FsTree :=
  .node entD (.ok
    (.cons (.node entA (.ok (.cons (.node entX (.ok .nil)) .nil)))
      (.cons (.node entB (.ok .nil)) .nil)))

/-- A visitor that always continues. -/
def visitorTrue : HandleFileDirectoryFunc :=
  fun _ _ _ _ => true

/-- A visitor that asks to stop exactly at path `/d/A` — in the worked
example that is its second invocation — and continues everywhere else. -/
def visitorStopAtA : HandleFileDirectoryFunc :=
  fun _ p _ _ => !(p == "/d/A")

/-- Claim C4: walking `/d` (folder `A` with file `x`, then file `B`)
invokes the visitor exactly four times, in pre-order with listing order
preserved — depth 0 `/d`, depth 1 `/d/A`, depth 2 `/d/A/x`, depth 1
`/d/B` — each child path being the parent's path joined with the child
name by "/" with duplicate slashes collapsed. -/
theorem walk_example_preorder_four_visits :
    ((FilesDirectoriesRecurseList (some visitorTrue) "/d" (.ok exampleTree)).2.map
        (fun c => (c.depth, c.fdPath))) =
      [(0, "/d"), (1, "/d/A"), (2, "/d/A/x"), (1, "/d/B")] ∧
    (FilesDirectoriesRecurseList (some visitorTrue) "/d" (.ok exampleTree)).2.length = 4 :=
  ⟨rfl, rfl⟩

/-- Claim C3 (code bug): the visitor returns false on its second
invocation (path `/d/A`, a folder), yet the walker still recurses into
`A` (third invocation at `/d/A/x`), still visits the next sibling
(fourth invocation at `/d/B`), and returns the full non-nil result list:
line 472 stores the visitor's false into `ok`, but line 474 immediately
overwrites `ok` with the recursive call's result. -/
theorem walk_false_on_folder_not_halting :
    ((FilesDirectoriesRecurseList (some visitorStopAtA) "/d" (.ok exampleTree)).2.map
        (fun c => (c.depth, c.fdPath))) =
      [(0, "/d"), (1, "/d/A"), (2, "/d/A/x"), (1, "/d/B")] ∧
    (FilesDirectoriesRecurseList (some visitorStopAtA) "/d" (.ok exampleTree)).1 =
      some [{ entA with Path := "/d/A" }, { entX with Path := "/d/A/x" },
            { entB with Path := "/d/B" }] :=
  ⟨rfl, rfl⟩

/-- Claim C7: when the start path resolves to a non-folder entity, the
visitor is invoked exactly once, at depth 0 with that entity and no
error, and the walk result is exactly that one entity; no descent
occurs. -/
theorem walk_single_file (f : HandleFileDirectoryFunc) (path : String) (ent : FileEntity)
    (listing : FsListing) (h : ent.FileType ≠ "folder") :
    FilesDirectoriesRecurseList (some f) path (.ok (.node ent listing)) =
      (some [ent], [⟨0, path, some ent, none⟩]) := by
  have hb : ent.IsFolder = false := by
    simp [FileEntity.IsFolder, h]
  unfold FilesDirectoriesRecurseList
  simp [hb]

/-- Witness for claim C7's theorem at the concrete file entity `entB`. -/
theorem walk_single_file_witness :
    entB.FileType ≠ "folder" ∧
    FilesDirectoriesRecurseList (some visitorTrue) "/d/B" (.ok (.node entB (.ok .nil))) =
      (some [entB], [⟨0, "/d/B", some entB, none⟩]) :=
  ⟨by decide, walk_single_file visitorTrue "/d/B" entB (.ok .nil) (by decide)⟩

mutual
/-- Specification-side pre-order over a node's listing: entities of a
failed listing are none (the walker aborts there, which `allListingsOk`
below rules out). -/
def preorderListing (path : String) : FsListing → List FileEntity
  | .fail _ => []
  | .ok cs => preorderForest path cs

/-- Specification-side depth-first pre-order of a forest: each child
(with its path computed from the parent path), then its own subtree if
it is a folder, then the remaining siblings in listing order. -/
def preorderForest (parentPath : String) : FsForest → List FileEntity
  | .nil => []
  | .cons (.node ent sub) rest =>
      let fi : FileEntity :=
        { ent with Path := goReplaceAllDoubleSlash (parentPath ++ PathSeparator ++ ent.FileName) }
      (fi :: (if fi.IsFolder then preorderListing fi.Path sub else []))
        ++ preorderForest parentPath rest
end

mutual
/-- Every directory listing reachable by the walk succeeds: folders carry
a successful listing whose children recursively satisfy the same; files
are unconstrained (the walker never lists them). -/
def allListingsOk : FsTree → Bool
  | .node ent sub => if ent.IsFolder then allListingsOkL sub else true

/-- `allListingsOk` on one listing. -/
def allListingsOkL : FsListing → Bool
  | .fail _ => false
  | .ok cs => allListingsOkF cs

/-- `allListingsOk` on a forest. -/
def allListingsOkF : FsForest → Bool
  | .nil => true
  | .cons t rest => allListingsOk t && allListingsOkF rest
end

/-- Expected result of a complete walk of a resolved node: its proper
descendants in depth-first pre-order for a folder, the node itself for a
file. -/
def expectedWalkResult : FsTree → List FileEntity
  | .node ent listing => if ent.IsFolder then preorderListing ent.Path listing else [ent]


theorem isFolder_update_path (ent : FileEntity) (p : String) :
    ({ ent with Path := p } : FileEntity).IsFolder = ent.IsFolder :=
  rfl

theorem path_update_path (ent : FileEntity) (p : String) :
    ({ ent with Path := p } : FileEntity).Path = p :=
  rfl

mutual
theorem recurseList_no_visitor (folderInfo : FileEntity) (l : FsListing) (depth : Nat)
    (fld : List FileEntity) (trace : List VisitCall) (h : allListingsOkL l = true) :
    recurseList none folderInfo l depth fld trace =
      (true, fld ++ preorderListing folderInfo.Path l, trace) := by
  match l with
  | .fail e => simp [allListingsOkL] at h
  | .ok cs =>
      have hc : allListingsOkF cs = true := by simpa [allListingsOkL] using h
      simpa [recurseList, preorderListing] using
        recurseLoop_no_visitor folderInfo depth cs fld trace hc

theorem recurseLoop_no_visitor (folderInfo : FileEntity) (depth : Nat) (cs : FsForest)
    (fld : List FileEntity) (trace : List VisitCall) (h : allListingsOkF cs = true) :
    recurseLoop none folderInfo depth cs fld trace =
      (true, fld ++ preorderForest folderInfo.Path cs, trace) := by
  match cs with
  | .nil => simp [recurseLoop, preorderForest]
  | .cons (.node ent sub) rest =>
      have h1 : allListingsOk (.node ent sub) = true := by
        have hh := h; simp [allListingsOkF] at hh; exact hh.1
      have h2 : allListingsOkF rest = true := by
        have hh := h; simp [allListingsOkF] at hh; exact hh.2
      by_cases hf : ent.IsFolder = true
      · have hsub : allListingsOkL sub = true := by
          simpa [allListingsOk, hf] using h1
        simp only [recurseLoop, isFolder_update_path, hf, if_true]
        rw [recurseList_no_visitor _ sub (depth + 1) _ trace hsub]
        dsimp only
        rw [recurseLoop_no_visitor folderInfo depth rest _ trace h2]
        simp [preorderForest, preorderListing, isFolder_update_path, hf,
          path_update_path, List.append_assoc]
      · have hf' : ent.IsFolder = false := by simpa using hf
        simp only [recurseLoop, isFolder_update_path, hf', if_false, Bool.false_eq_true]
        rw [recurseLoop_no_visitor folderInfo depth rest _ trace h2]
        simp [preorderForest, isFolder_update_path, hf', List.append_assoc]
end

/-- Claim C10: with no visitor callback supplied, and a resolved start
node all of whose reachable directory listings succeed, the walker never
aborts: it traverses the entire subtree, returns the complete accumulated
entity list in depth-first pre-order (the node itself for a file start),
and invokes no callback at any node (the trace is empty). -/
theorem walk_no_visitor_complete (path : String) (t : FsTree)
    (h : allListingsOk t = true) :
    FilesDirectoriesRecurseList none path (.ok t) = (some (expectedWalkResult t), []) := by
  match t with
  | .node ent listing =>
      by_cases hf : ent.IsFolder = true
      · have hsub : allListingsOkL listing = true := by
          simpa [allListingsOk, hf] using h
        have hrec := recurseList_no_visitor ent listing 1 [] [] hsub
        simp [FilesDirectoriesRecurseList, hf, expectedWalkResult, hrec]
      · have hf' : ent.IsFolder = false := by simpa using hf
        simp [FilesDirectoriesRecurseList, hf', expectedWalkResult]

/-- Witness for claim C10's theorem at the concrete worked-example tree. -/
theorem walk_no_visitor_complete_witness :
    allListingsOk exampleTree = true ∧
    FilesDirectoriesRecurseList none "/d" (.ok exampleTree) =
      (some (expectedWalkResult exampleTree), []) :=
  ⟨rfl, walk_no_visitor_complete "/d" exampleTree rfl⟩
